import Mathlib

/-!
Shallow embedding of `intellifold/data/tokenize/boltz.py`
(`BoltzTokenizer.tokenize`) and proofs about it.

The structured numpy arrays of the source become lists of records, the
running `token_idx` / `atom_to_token` dictionary become an explicit state
threaded through folds that mirror the Python loops, and the lookup tables
of the external `intellifold.data.const` module become an injected
configuration record.
-/

namespace IntFold

/-- 3D coordinate vector of an atom (the embedding carries coordinates
opaquely over the integers: the tokenizer only copies them). -/
abbrev Coords := Int × Int × Int

/-- An atom record: `{coords, is_present}`. -/
structure Atom where
  coords : Coords
  is_present : Bool
deriving DecidableEq

/-- A residue record:
`{atom_idx, atom_num, res_idx, res_type, name, is_standard, is_present,
atom_center, atom_disto}`. -/
structure Residue where
  atom_idx : Nat
  atom_num : Nat
  res_idx : Nat
  res_type : Nat
  name : String
  is_standard : Bool
  is_present : Bool
  atom_center : Nat
  atom_disto : Nat
deriving DecidableEq

/-- A chain record:
`{res_idx, res_num, mol_type, sym_id, asym_id, entity_id, cyclic_period}`.
The validity mask is a parallel array on the structure, as in the source. -/
structure Chain where
  res_idx : Nat
  res_num : Nat
  mol_type : Nat
  sym_id : Nat
  asym_id : Nat
  entity_id : Nat
  cyclic_period : Nat
deriving DecidableEq

/-- A bond or connection record: a pair `{atom_1, atom_2}` of global atom
indices. -/
structure Bond where
  atom_1 : Nat
  atom_2 : Nat
deriving DecidableEq

/-- The input structure: chains with a parallel validity mask, residues,
atoms, atom-level bonds and explicit connections. -/
structure Structure where
  chains : List Chain
  mask : List Bool
  residues : List Residue
  atoms : List Atom
  bonds : List Bond
  connections : List Bond
deriving DecidableEq

/-- Modelled from the spec: the lookup tables of the external
`intellifold.data.const` module (`unk_token`, `token_ids`,
`mapping_boltz_token_ids_to_our_token_ids`, `chain_types`,
`CCD_NAME_TO_ONE_LETTER`) are not under `src/`; per the spec they are a
fixed, read-only injected configuration.  `CCD_NAME_TO_ONE_LETTER` is
abstracted to its membership test (only `res_name in ...` is used). -/
structure Const where
  unk_token_PROTEIN : String
  token_ids : String → Nat
  mapping_boltz_token_ids_to_our_token_ids : Nat → Nat
  chain_types : Nat → String
  CCD_NAME_TO_ONE_LETTER : String → Bool

/-- The `TokenData` record of the source, one per emitted token. -/
structure TokenData where
  token_idx : Nat
  atom_idx : Nat
  atom_num : Nat
  res_idx : Nat
  res_type : Nat
  sym_id : Nat
  asym_id : Nat
  entity_id : Nat
  mol_type : Nat
  center_idx : Nat
  disto_idx : Nat
  center_coords : Coords
  disto_coords : Coords
  resolved_mask : Bool
  disto_mask : Bool
  cyclic_period : Nat
deriving DecidableEq

/-- The input bundle: a structure plus opaque pass-through msa and
residue-constraint data. -/
structure Input (M R : Type) where
  structure_ : Structure
  msa : M
  residue_constraints : R

/-- The output bundle `Tokenized(tokens, bonds, structure, msa,
residue_constraints)`. -/
structure Tokenized (M R : Type) where
  tokens : List TokenData
  bonds : List (Nat × Nat)
  structure_ : Structure
  msa : M
  residue_constraints : R

/-- The mutable state of the tokenize loop: the `token_data` list, the
`token_idx` counter and the `atom_to_token` dictionary (kept as the list of
insertions, in insertion order; lookups take the first binding). -/
structure TState where
  token_data : List TokenData
  token_idx : Nat
  atom_to_token : List (Nat × Nat)
deriving DecidableEq

/-- Default atom used to totalize the (unchecked in the source) array
indexing `struct.atoms[...]`; out-of-range indices are a precondition
violation with undefined behavior. -/
def defaultAtom : Atom := { coords := (0, 0, 0), is_present := false }

/-- Lines 137-140: the unk protein token id, remapped through
`mapping_boltz_token_ids_to_our_token_ids`. -/
def unk_id (c : Const) : Nat :=
  c.mapping_boltz_token_ids_to_our_token_ids (c.token_ids c.unk_token_PROTEIN)

/-- Lines 141-145: the residue type used for every atom-token of a
non-standard residue. -/
def nonStdResType (c : Const) (chain : Chain) (res : Residue) : Nat :=
  if (c.chain_types chain.mol_type != "NONPOLYMER") &&
      c.CCD_NAME_TO_ONE_LETTER res.name then
    res.res_type
  else
    unk_id c

/-- Lines 151-182: the body of the per-atom loop of the non-standard
branch; `ia` is the `enumerate` pair `(i, atom)`. -/
def processAtom (chain : Chain) (res : Residue) (res_type : Nat)
    (atom_start : Nat) (st : TState) (ia : Nat × Atom) : TState :=
  let i := ia.1
  let atom := ia.2
  let is_present := res.is_present && atom.is_present
  let index := atom_start + i
  let token : TokenData :=
    { token_idx := st.token_idx
      atom_idx := index
      atom_num := 1
      res_idx := res.res_idx
      res_type := res_type
      sym_id := chain.sym_id
      asym_id := chain.asym_id
      entity_id := chain.entity_id
      mol_type := chain.mol_type
      center_idx := index
      disto_idx := index
      center_coords := atom.coords
      disto_coords := atom.coords
      resolved_mask := is_present
      disto_mask := is_present
      cyclic_period := chain.cyclic_period }
  { token_data := st.token_data ++ [token]
    token_idx := st.token_idx + 1
    atom_to_token := st.atom_to_token ++ [(index, st.token_idx)] }

/-- Lines 89-182: processing of one residue of a valid chain. -/
def processResidue (c : Const) (struct : Structure) (chain : Chain)
    (res : Residue) (st : TState) : TState :=
  let atom_start := res.atom_idx
  let atom_end := res.atom_idx + res.atom_num
  if res.is_standard then
    let center := struct.atoms.getD res.atom_center defaultAtom
    let disto := struct.atoms.getD res.atom_disto defaultAtom
    let is_present := res.is_present && center.is_present
    let is_disto_present := res.is_present && disto.is_present
    let c_coords := center.coords
    let d_coords := disto.coords
    let token : TokenData :=
      { token_idx := st.token_idx
        atom_idx := res.atom_idx
        atom_num := res.atom_num
        res_idx := res.res_idx
        res_type := res.res_type
        sym_id := chain.sym_id
        asym_id := chain.asym_id
        entity_id := chain.entity_id
        mol_type := chain.mol_type
        center_idx := res.atom_center
        disto_idx := res.atom_disto
        center_coords := c_coords
        disto_coords := d_coords
        resolved_mask := is_present
        disto_mask := is_disto_present
        cyclic_period := chain.cyclic_period }
    { token_data := st.token_data ++ [token]
      token_idx := st.token_idx + 1
      atom_to_token := st.atom_to_token ++
        (List.range' atom_start (atom_end - atom_start)).map
          (fun a => (a, st.token_idx)) }
  else
    let res_type := nonStdResType c chain res
    let atom_data := (struct.atoms.drop atom_start).take (atom_end - atom_start)
    atom_data.enum.foldl (processAtom chain res res_type atom_start) st

/-- Lines 84-88: processing of one valid chain (iterate its residue
slice `struct.residues[res_start:res_end]`). -/
def processChain (c : Const) (struct : Structure) (chain : Chain)
    (st : TState) : TState :=
  let res_start := chain.res_idx
  let res_end := chain.res_idx + chain.res_num
  ((struct.residues.drop res_start).take (res_end - res_start)).foldl
    (fun st res => processResidue c struct chain res st) st

/-- Line 81: `chains = struct.chains[struct.mask]`, boolean-mask
filtering of the chains by the validity mask. -/
def validChains (struct : Structure) : List Chain :=
  ((struct.chains.zip struct.mask).filter (fun p => p.2)).map (fun p => p.1)

/-- The initial loop state: lines 74-78. -/
def initState : TState := { token_data := [], token_idx := 0, atom_to_token := [] }

/-- Lines 74-182: the token-emission phase over all valid chains. -/
def emitTokens (c : Const) (struct : Structure) : TState :=
  (validChains struct).foldl (fun st chain => processChain c struct chain st)
    initState

/-- Lookup in the `atom_to_token` dictionary. -/
def atomToToken (st : TState) : Nat → Option Nat :=
  fun a => st.atom_to_token.lookup a

/-- Lines 188-211: project a list of atom-level bonds through the
atom-to-token map, skipping any bond with an unmapped endpoint. -/
def projectBonds (m : Nat → Option Nat) (bonds : List Bond) :
    List (Nat × Nat) :=
  bonds.filterMap (fun bond =>
    match m bond.atom_1, m bond.atom_2 with
    | some t1, some t2 => some (t1, t2)
    | _, _ => none)

/-- Lines 56-222: `BoltzTokenizer.tokenize`. -/
def tokenize {M R : Type} (c : Const) (data : Input M R) : Tokenized M R :=
  let struct := data.structure_
  let st := emitTokens c struct
  let m := atomToToken st
  { tokens := st.token_data
    bonds := projectBonds m struct.bonds ++ projectBonds m struct.connections
    structure_ := data.structure_
    msa := data.msa
    residue_constraints := data.residue_constraints }

/-! Spec-side helpers used to state and prove the claims. -/

/-- The residue slice `struct.residues[res_idx : res_idx + res_num]` of a
chain. -/
def chainResidues (struct : Structure) (chain : Chain) : List Residue :=
  (struct.residues.drop chain.res_idx).take chain.res_num

/-- The global atom indices of a residue's recorded atom range. -/
def residueAtoms (res : Residue) : List Nat :=
  List.range' res.atom_idx res.atom_num

/-- The atom slice `struct.atoms[atom_idx : atom_idx + atom_num]` of a
residue. -/
def resAtomData (struct : Structure) (res : Residue) : List Atom :=
  (struct.atoms.drop res.atom_idx).take res.atom_num

/-- The chains whose validity-mask entry is unset. -/
def invalidChains (struct : Structure) : List Chain :=
  ((struct.chains.zip struct.mask).filter (fun p => !p.2)).map (fun p => p.1)

/-- All atom indices covered by residues of valid chains. -/
def validAtoms (struct : Structure) : List Nat :=
  (validChains struct).flatMap fun ch =>
    (chainResidues struct ch).flatMap residueAtoms

/-- All atom indices covered by residues of invalid chains. -/
def invalidAtoms (struct : Structure) : List Nat :=
  (invalidChains struct).flatMap fun ch =>
    (chainResidues struct ch).flatMap residueAtoms

/-- The token record built by the standard-residue branch when the running
counter is `k`. -/
def stdTokenOf (struct : Structure) (chain : Chain) (res : Residue)
    (k : Nat) : TokenData :=
  { token_idx := k
    atom_idx := res.atom_idx
    atom_num := res.atom_num
    res_idx := res.res_idx
    res_type := res.res_type
    sym_id := chain.sym_id
    asym_id := chain.asym_id
    entity_id := chain.entity_id
    mol_type := chain.mol_type
    center_idx := res.atom_center
    disto_idx := res.atom_disto
    center_coords := (struct.atoms.getD res.atom_center defaultAtom).coords
    disto_coords := (struct.atoms.getD res.atom_disto defaultAtom).coords
    resolved_mask :=
      res.is_present && (struct.atoms.getD res.atom_center defaultAtom).is_present
    disto_mask :=
      res.is_present && (struct.atoms.getD res.atom_disto defaultAtom).is_present
    cyclic_period := chain.cyclic_period }

/-- The token record built by the non-standard branch for one atom at
global index `idx`, running counter `k`. -/
def mkAtomToken (chain : Chain) (res : Residue) (rt idx k : Nat)
    (atom : Atom) : TokenData :=
  { token_idx := k
    atom_idx := idx
    atom_num := 1
    res_idx := res.res_idx
    res_type := rt
    sym_id := chain.sym_id
    asym_id := chain.asym_id
    entity_id := chain.entity_id
    mol_type := chain.mol_type
    center_idx := idx
    disto_idx := idx
    center_coords := atom.coords
    disto_coords := atom.coords
    resolved_mask := res.is_present && atom.is_present
    disto_mask := res.is_present && atom.is_present
    cyclic_period := chain.cyclic_period }

/-- The token records the non-standard branch emits for an atom slice,
starting at global atom index `idx` and counter `k`. -/
def atomTokensFrom (chain : Chain) (res : Residue) (rt : Nat) :
    Nat → Nat → List Atom → List TokenData
  | _, _, [] => []
  | idx, k, atom :: rest =>
      mkAtomToken chain res rt idx k atom ::
        atomTokensFrom chain res rt (idx + 1) (k + 1) rest

/-- The `atom_to_token` insertions the non-standard branch performs for an
atom slice, starting at global atom index `idx` and counter `k`. -/
def atomBindings : Nat → Nat → List Atom → List (Nat × Nat)
  | _, _, [] => []
  | idx, k, _ :: rest => (idx, k) :: atomBindings (idx + 1) (k + 1) rest

lemma range'_append_one (s m n : Nat) :
    List.range' s m ++ List.range' (s + m) n = List.range' s (m + n) := by
  have h := List.range'_append s m n 1
  simp only [Nat.one_mul, Nat.add_comm n m] at h
  exact h

lemma foldl_processAtom (chain : Chain) (res : Residue) (rt a0 : Nat) :
    ∀ (data : List Atom) (n : Nat) (st : TState),
      (List.enumFrom n data).foldl (processAtom chain res rt a0) st =
        { token_data := st.token_data ++
            atomTokensFrom chain res rt (a0 + n) st.token_idx data
          token_idx := st.token_idx + data.length
          atom_to_token := st.atom_to_token ++
            atomBindings (a0 + n) st.token_idx data } := by
  intro data
  induction data with
  | nil => intro n st; simp [atomTokensFrom, atomBindings]
  | cons atom rest ih =>
      intro n st
      rw [List.enumFrom_cons, List.foldl_cons, ih (n + 1)]
      simp [processAtom, atomTokensFrom, atomBindings, mkAtomToken,
        Nat.add_assoc, Nat.add_comm, Nat.add_left_comm]

lemma processResidue_std (c : Const) (struct : Structure) (chain : Chain)
    (res : Residue) (st : TState) (h : res.is_standard = true) :
    processResidue c struct chain res st =
      { token_data := st.token_data ++ [stdTokenOf struct chain res st.token_idx]
        token_idx := st.token_idx + 1
        atom_to_token := st.atom_to_token ++
          (residueAtoms res).map (fun a => (a, st.token_idx)) } := by
  simp [processResidue, h, stdTokenOf, residueAtoms]

lemma processResidue_nonstd (c : Const) (struct : Structure) (chain : Chain)
    (res : Residue) (st : TState) (h : res.is_standard = false) :
    processResidue c struct chain res st =
      { token_data := st.token_data ++
          atomTokensFrom chain res (nonStdResType c chain res) res.atom_idx
            st.token_idx (resAtomData struct res)
        token_idx := st.token_idx + (resAtomData struct res).length
        atom_to_token := st.atom_to_token ++
          atomBindings res.atom_idx st.token_idx (resAtomData struct res) } := by
  simp only [processResidue, h, Bool.false_eq_true, if_false,
    List.enum_eq_enumFrom]
  rw [foldl_processAtom]
  simp [resAtomData]

/-- The tokens one residue contributes when the running counter is `k`. -/
def resTokens (c : Const) (struct : Structure) (chain : Chain)
    (res : Residue) (k : Nat) : List TokenData :=
  if res.is_standard then [stdTokenOf struct chain res k]
  else
    atomTokensFrom chain res (nonStdResType c chain res) res.atom_idx k
      (resAtomData struct res)

/-- The number of tokens one residue contributes. -/
def resCount (struct : Structure) (res : Residue) : Nat :=
  if res.is_standard then 1 else (resAtomData struct res).length

/-- The `atom_to_token` insertions one residue contributes when the running
counter is `k`. -/
def resBindings (struct : Structure) (res : Residue) (k : Nat) :
    List (Nat × Nat) :=
  if res.is_standard then (residueAtoms res).map (fun a => (a, k))
  else atomBindings res.atom_idx k (resAtomData struct res)

lemma processResidue_eq (c : Const) (struct : Structure) (chain : Chain)
    (res : Residue) (st : TState) :
    processResidue c struct chain res st =
      { token_data := st.token_data ++ resTokens c struct chain res st.token_idx
        token_idx := st.token_idx + resCount struct res
        atom_to_token := st.atom_to_token ++
          resBindings struct res st.token_idx } := by
  cases h : res.is_standard with
  | true =>
      rw [processResidue_std c struct chain res st h]
      simp [resTokens, resCount, resBindings, h]
  | false =>
      rw [processResidue_nonstd c struct chain res st h]
      simp [resTokens, resCount, resBindings, h]

/-- The tokens a residue list contributes, counter starting at `k`. -/
def resListTokens (c : Const) (struct : Structure) (chain : Chain) :
    Nat → List Residue → List TokenData
  | _, [] => []
  | k, res :: rest =>
      resTokens c struct chain res k ++
        resListTokens c struct chain (k + resCount struct res) rest

/-- The number of tokens a residue list contributes. -/
def resListCount (struct : Structure) : List Residue → Nat
  | [] => 0
  | res :: rest => resCount struct res + resListCount struct rest

/-- The `atom_to_token` insertions a residue list contributes, counter
starting at `k`. -/
def resListBindings (struct : Structure) :
    Nat → List Residue → List (Nat × Nat)
  | _, [] => []
  | k, res :: rest =>
      resBindings struct res k ++
        resListBindings struct (k + resCount struct res) rest

lemma foldl_processResidue (c : Const) (struct : Structure) (chain : Chain) :
    ∀ (rl : List Residue) (st : TState),
      rl.foldl (fun st res => processResidue c struct chain res st) st =
        { token_data := st.token_data ++
            resListTokens c struct chain st.token_idx rl
          token_idx := st.token_idx + resListCount struct rl
          atom_to_token := st.atom_to_token ++
            resListBindings struct st.token_idx rl } := by
  intro rl
  induction rl with
  | nil => intro st; simp [resListTokens, resListCount, resListBindings]
  | cons res rest ih =>
      intro st
      rw [List.foldl_cons, processResidue_eq, ih]
      simp [resListTokens, resListCount, resListBindings, Nat.add_assoc]

lemma processChain_eq (c : Const) (struct : Structure) (chain : Chain)
    (st : TState) :
    processChain c struct chain st =
      { token_data := st.token_data ++
          resListTokens c struct chain st.token_idx (chainResidues struct chain)
        token_idx := st.token_idx + resListCount struct (chainResidues struct chain)
        atom_to_token := st.atom_to_token ++
          resListBindings struct st.token_idx (chainResidues struct chain) } := by
  have hsl : chain.res_idx + chain.res_num - chain.res_idx = chain.res_num :=
    Nat.add_sub_cancel_left _ _
  simp only [processChain, hsl]
  rw [foldl_processResidue]
  rfl

/-- The tokens a chain list contributes, counter starting at `k`. -/
def chainListTokens (c : Const) (struct : Structure) :
    Nat → List Chain → List TokenData
  | _, [] => []
  | k, ch :: rest =>
      resListTokens c struct ch k (chainResidues struct ch) ++
        chainListTokens c struct
          (k + resListCount struct (chainResidues struct ch)) rest

/-- The number of tokens a chain list contributes. -/
def chainListCount (struct : Structure) : List Chain → Nat
  | [] => 0
  | ch :: rest =>
      resListCount struct (chainResidues struct ch) + chainListCount struct rest

/-- The `atom_to_token` insertions a chain list contributes, counter
starting at `k`. -/
def chainListBindings (struct : Structure) :
    Nat → List Chain → List (Nat × Nat)
  | _, [] => []
  | k, ch :: rest =>
      resListBindings struct k (chainResidues struct ch) ++
        chainListBindings struct
          (k + resListCount struct (chainResidues struct ch)) rest

lemma foldl_processChain (c : Const) (struct : Structure) :
    ∀ (cl : List Chain) (st : TState),
      cl.foldl (fun st chain => processChain c struct chain st) st =
        { token_data := st.token_data ++ chainListTokens c struct st.token_idx cl
          token_idx := st.token_idx + chainListCount struct cl
          atom_to_token := st.atom_to_token ++
            chainListBindings struct st.token_idx cl } := by
  intro cl
  induction cl with
  | nil => intro st; simp [chainListTokens, chainListCount, chainListBindings]
  | cons ch rest ih =>
      intro st
      rw [List.foldl_cons, processChain_eq, ih]
      simp [chainListTokens, chainListCount, chainListBindings, Nat.add_assoc]

lemma emitTokens_eq (c : Const) (struct : Structure) :
    emitTokens c struct =
      { token_data := chainListTokens c struct 0 (validChains struct)
        token_idx := chainListCount struct (validChains struct)
        atom_to_token := chainListBindings struct 0 (validChains struct) } := by
  rw [emitTokens, foldl_processChain]
  simp [initState]

/-! Token-index bookkeeping. -/

lemma map_token_idx_atomTokensFrom (chain : Chain) (res : Residue) (rt : Nat) :
    ∀ (data : List Atom) (idx k : Nat),
      (atomTokensFrom chain res rt idx k data).map TokenData.token_idx =
        List.range' k data.length := by
  intro data
  induction data with
  | nil => intro idx k; simp [atomTokensFrom]
  | cons atom rest ih =>
      intro idx k
      simp [atomTokensFrom, mkAtomToken, List.range'_succ, ih]

lemma map_token_idx_resTokens (c : Const) (struct : Structure) (chain : Chain)
    (res : Residue) (k : Nat) :
    (resTokens c struct chain res k).map TokenData.token_idx =
      List.range' k (resCount struct res) := by
  cases h : res.is_standard with
  | true => simp [resTokens, resCount, h, stdTokenOf]
  | false => simp [resTokens, resCount, h, map_token_idx_atomTokensFrom]

lemma map_token_idx_resListTokens (c : Const) (struct : Structure)
    (chain : Chain) :
    ∀ (rl : List Residue) (k : Nat),
      (resListTokens c struct chain k rl).map TokenData.token_idx =
        List.range' k (resListCount struct rl) := by
  intro rl
  induction rl with
  | nil => intro k; simp [resListTokens, resListCount]
  | cons res rest ih =>
      intro k
      rw [resListTokens, List.map_append, map_token_idx_resTokens, ih,
        resListCount, range'_append_one]

lemma map_token_idx_chainListTokens (c : Const) (struct : Structure) :
    ∀ (cl : List Chain) (k : Nat),
      (chainListTokens c struct k cl).map TokenData.token_idx =
        List.range' k (chainListCount struct cl) := by
  intro cl
  induction cl with
  | nil => intro k; simp [chainListTokens, chainListCount]
  | cons ch rest ih =>
      intro k
      rw [chainListTokens, List.map_append, map_token_idx_resListTokens, ih,
        chainListCount, range'_append_one]

lemma length_chainListTokens (c : Const) (struct : Structure)
    (cl : List Chain) (k : Nat) :
    (chainListTokens c struct k cl).length = chainListCount struct cl := by
  have h := congrArg List.length (map_token_idx_chainListTokens c struct cl k)
  simpa using h

/-- Claim C4: the `token_idx` fields of the emitted token records form
exactly the integer sequence `0, 1, ..., N-1` in emission order, with no
gaps and no repeats, where `N` is the total number of emitted tokens. -/
theorem tokenize_token_idx_contiguous {M R : Type} (c : Const)
    (data : Input M R) :
    (tokenize c data).tokens.map TokenData.token_idx =
      List.range (tokenize c data).tokens.length := by
  have he := emitTokens_eq c data.structure_
  simp only [tokenize, he]
  rw [map_token_idx_chainListTokens, length_chainListTokens,
    List.range_eq_range']

/-! The domain of the `atom_to_token` map. -/

/-- The keys one residue inserts into `atom_to_token`: the full recorded
range for a standard residue, the indices of the actually sliced atoms for
a non-standard one. -/
def resKeys (struct : Structure) (res : Residue) : List Nat :=
  if res.is_standard then residueAtoms res
  else List.range' res.atom_idx (resAtomData struct res).length

/-- Well-formedness precondition (assumed, not checked, by the source):
every residue's recorded atom range lies inside the atoms array. -/
def atomRangesInBounds (struct : Structure) : Prop :=
  ∀ res ∈ struct.residues, res.atom_idx + res.atom_num ≤ struct.atoms.length

instance (struct : Structure) : Decidable (atomRangesInBounds struct) :=
  List.decidableBAll _ _

lemma keys_atomBindings :
    ∀ (data : List Atom) (idx k : Nat),
      (atomBindings idx k data).map Prod.fst = List.range' idx data.length := by
  intro data
  induction data with
  | nil => intro idx k; simp [atomBindings]
  | cons atom rest ih =>
      intro idx k
      simp [atomBindings, List.range'_succ, ih]

lemma keys_resBindings (struct : Structure) (res : Residue) (k : Nat) :
    (resBindings struct res k).map Prod.fst = resKeys struct res := by
  cases h : res.is_standard with
  | true =>
      simp only [resBindings, resKeys, h, if_true, List.map_map]
      exact List.map_id _
  | false => simp [resBindings, resKeys, h, keys_atomBindings]

lemma keys_resListBindings (struct : Structure) :
    ∀ (rl : List Residue) (k : Nat),
      (resListBindings struct k rl).map Prod.fst =
        rl.flatMap (resKeys struct) := by
  intro rl
  induction rl with
  | nil => intro k; simp [resListBindings]
  | cons res rest ih =>
      intro k
      rw [resListBindings, List.map_append, keys_resBindings, ih,
        List.flatMap_cons]

lemma keys_chainListBindings (struct : Structure) :
    ∀ (cl : List Chain) (k : Nat),
      (chainListBindings struct k cl).map Prod.fst =
        cl.flatMap (fun ch => (chainResidues struct ch).flatMap
          (resKeys struct)) := by
  intro cl
  induction cl with
  | nil => intro k; simp [chainListBindings]
  | cons ch rest ih =>
      intro k
      rw [chainListBindings, List.map_append, keys_resListBindings, ih,
        List.flatMap_cons]

lemma mem_residues_of_mem_chainResidues (struct : Structure) (ch : Chain)
    (res : Residue) (h : res ∈ chainResidues struct ch) :
    res ∈ struct.residues := by
  have h1 : res ∈ struct.residues.drop ch.res_idx :=
    (List.take_sublist _ _).subset h
  exact (List.drop_sublist _ _).subset h1

lemma length_resAtomData (struct : Structure) (res : Residue)
    (h : res.atom_idx + res.atom_num ≤ struct.atoms.length) :
    (resAtomData struct res).length = res.atom_num := by
  rw [resAtomData, List.length_take, List.length_drop]
  exact Nat.min_eq_left (Nat.le_sub_of_add_le (Nat.add_comm _ _ ▸ h))

lemma resKeys_eq_residueAtoms (struct : Structure) (res : Residue)
    (h : res.atom_idx + res.atom_num ≤ struct.atoms.length) :
    resKeys struct res = residueAtoms res := by
  cases hs : res.is_standard with
  | true => simp [resKeys, hs]
  | false => simp [resKeys, hs, length_resAtomData struct res h, residueAtoms]

lemma keys_emitTokens (c : Const) (struct : Structure)
    (hb : atomRangesInBounds struct) :
    (emitTokens c struct).atom_to_token.map Prod.fst = validAtoms struct := by
  rw [emitTokens_eq]
  rw [keys_chainListBindings]
  refine List.flatMap_congr fun ch _ => ?_
  refine List.flatMap_congr fun res hres => ?_
  exact resKeys_eq_residueAtoms struct res
    (hb res (mem_residues_of_mem_chainResidues struct ch res hres))

/-! Association-list lookup facts. -/

lemma lookup_eq_none_of_not_mem_keys (l : List (Nat × Nat)) (a : Nat)
    (h : a ∉ l.map Prod.fst) : l.lookup a = none := by
  induction l with
  | nil => rfl
  | cons p rest ih =>
      simp only [List.map_cons, List.mem_cons, not_or] at h
      obtain ⟨h1, h2⟩ := h
      cases p with
      | mk x t =>
          have hne : (a == x) = false := by
            simp only [beq_eq_false_iff_ne]
            exact fun hax => h1 (by simp [hax])
          simp [List.lookup, hne, ih h2]

lemma lookup_eq_some_of_mem_keys (l : List (Nat × Nat)) (a : Nat)
    (h : a ∈ l.map Prod.fst) : ∃ t, l.lookup a = some t := by
  induction l with
  | nil => simp at h
  | cons p rest ih =>
      cases p with
      | mk x t =>
          by_cases hax : a = x
          · exact ⟨t, by simp [List.lookup, hax]⟩
          · have h2 : a ∈ rest.map Prod.fst := by
              simp only [List.map_cons, List.mem_cons] at h
              exact h.resolve_left hax
            obtain ⟨u, hu⟩ := ih h2
            have hb : (a == x) = false := beq_eq_false_iff_ne.mpr hax
            exact ⟨u, by simp [List.lookup, hb, hu]⟩

lemma lookup_eq_some_of_mem_of_nodup (l : List (Nat × Nat)) (a t : Nat)
    (hnd : (l.map Prod.fst).Nodup) (h : (a, t) ∈ l) :
    l.lookup a = some t := by
  induction l with
  | nil => simp at h
  | cons p rest ih =>
      simp only [List.map_cons, List.nodup_cons] at hnd
      obtain ⟨hp, hrest⟩ := hnd
      rcases List.mem_cons.mp h with h1 | h1
      · rw [← h1]
        simp [List.lookup]
      · cases p with
        | mk x u =>
            have hax : a ≠ x := by
              intro hax
              apply hp
              subst hax
              exact List.mem_map.mpr ⟨(a, t), h1, rfl⟩
            have hbx : (a == x) = false := beq_eq_false_iff_ne.mpr hax
            simp [List.lookup, hbx, ih hrest h1]

/-- Claim C3: after `tokenize` completes, every atom index belonging to a
residue of a valid chain is mapped by `atom_to_token` to exactly one token
index (the key list is duplicate-free, so no atom is ever assigned to more
than one token), and no atom index belonging to an invalid chain appears
in the map.  Preconditions: atom ranges are in bounds, the valid chains'
atom ranges do not overlap, and invalid chains' atom ranges are disjoint
from valid ones (well-formedness the source assumes, see the spec). -/
theorem tokenize_atom_map_total (c : Const) (struct : Structure)
    (hb : atomRangesInBounds struct)
    (hnd : (validAtoms struct).Nodup)
    (hdisj : ∀ a ∈ invalidAtoms struct, a ∉ validAtoms struct) :
    (∀ a ∈ validAtoms struct, ∃ t, atomToToken (emitTokens c struct) a = some t) ∧
    ((emitTokens c struct).atom_to_token.map Prod.fst).Nodup ∧
    (∀ a ∈ invalidAtoms struct, atomToToken (emitTokens c struct) a = none) := by
  have hkeys := keys_emitTokens c struct hb
  refine ⟨?_, ?_, ?_⟩
  · intro a ha
    exact lookup_eq_some_of_mem_keys _ a (hkeys ▸ ha)
  · exact hkeys ▸ hnd
  · intro a ha
    exact lookup_eq_none_of_not_mem_keys _ a (hkeys ▸ hdisj a ha)

/-! Bond projection. -/

lemma projectBonds_eq_map_filter (m : Nat → Option Nat) (bonds : List Bond) :
    projectBonds m bonds =
      (bonds.filter
          (fun b => (m b.atom_1).isSome && (m b.atom_2).isSome)).map
        (fun b => ((m b.atom_1).getD 0, (m b.atom_2).getD 0)) := by
  induction bonds with
  | nil => rfl
  | cons b rest ih =>
      simp only [projectBonds] at ih ⊢
      cases h1 : m b.atom_1 <;> cases h2 : m b.atom_2 <;>
        simp [List.filterMap_cons, List.filter_cons, h1, h2, ih]

/-- Claim C2: for every atom-level bond and every explicit connection,
`tokenize` emits exactly one token-bond pair
`(atom_to_token[atom_1], atom_to_token[atom_2])`, in that endpoint order,
iff both endpoints are in the domain of the atom-to-token map; a bond with
an unmapped endpoint contributes nothing, and no deduplication is
performed: the output is exactly the order- and multiplicity-preserving
map of the lookup pair over the filtered bond-then-connection list. -/
theorem tokenize_bond_projection {M R : Type} (c : Const) (data : Input M R) :
    (tokenize c data).bonds =
      ((data.structure_.bonds ++ data.structure_.connections).filter
          (fun b =>
            (atomToToken (emitTokens c data.structure_) b.atom_1).isSome &&
            (atomToToken (emitTokens c data.structure_) b.atom_2).isSome)).map
        (fun b =>
          ((atomToToken (emitTokens c data.structure_) b.atom_1).getD 0,
           (atomToToken (emitTokens c data.structure_) b.atom_2).getD 0)) := by
  simp only [tokenize]
  rw [List.filter_append, List.map_append,
    projectBonds_eq_map_filter, projectBonds_eq_map_filter]

/-- Claim C9: `tokenize` never mutates its input (the embedding is a pure
function of it), and the returned `Tokenized` bundle forwards the original
structure (all its components unchanged) and the msa and
residue-constraint data exactly as received. -/
theorem tokenize_passthrough {M R : Type} (c : Const) (data : Input M R) :
    (tokenize c data).structure_ = data.structure_ ∧
    (tokenize c data).msa = data.msa ∧
    (tokenize c data).residue_constraints = data.residue_constraints ∧
    (tokenize c data).structure_.chains = data.structure_.chains ∧
    (tokenize c data).structure_.residues = data.structure_.residues ∧
    (tokenize c data).structure_.atoms = data.structure_.atoms ∧
    (tokenize c data).structure_.bonds = data.structure_.bonds ∧
    (tokenize c data).structure_.connections = data.structure_.connections :=
  ⟨rfl, rfl, rfl, rfl, rfl, rfl, rfl, rfl⟩

/-! Per-residue token facts. -/

/-- Placeholder token used as the default of positional `getD` accesses in
theorem statements. -/
def dummyToken : TokenData :=
  { token_idx := 0, atom_idx := 0, atom_num := 0, res_idx := 0, res_type := 0
    sym_id := 0, asym_id := 0, entity_id := 0, mol_type := 0
    center_idx := 0, disto_idx := 0, center_coords := (0, 0, 0)
    disto_coords := (0, 0, 0), resolved_mask := false, disto_mask := false
    cyclic_period := 0 }

lemma getD_append_right {α : Type} (l1 l2 : List α) (i : Nat) (d : α) :
    (l1 ++ l2).getD (l1.length + i) d = l2.getD i d := by
  rw [List.getD_eq_getElem?_getD, List.getD_eq_getElem?_getD,
    List.getElem?_append_right (Nat.le_add_right _ _)]
  simp

lemma res_type_of_mem_atomTokensFrom (chain : Chain) (res : Residue)
    (rt : Nat) :
    ∀ (data : List Atom) (idx k : Nat) (t : TokenData),
      t ∈ atomTokensFrom chain res rt idx k data → t.res_type = rt := by
  intro data
  induction data with
  | nil => intro idx k t ht; simp [atomTokensFrom] at ht
  | cons atom rest ih =>
      intro idx k t ht
      rcases List.mem_cons.mp ht with h1 | h1
      · rw [h1]; rfl
      · exact ih (idx + 1) (k + 1) t h1

/-- Claim C1: for every non-standard residue, the `res_type` written into
each of its atom-tokens is the residue's own recorded type exactly when the
chain's molecule-type category is not `NONPOLYMER` and the residue name is
a key of `CCD_NAME_TO_ONE_LETTER`; in every other case it is the
substituted unknown type (the protein unk token id remapped through
`mapping_boltz_token_ids_to_our_token_ids`), and the chosen type is
identical across all atom-tokens of the residue, computed once. -/
theorem nonstd_res_type_policy (c : Const) (struct : Structure)
    (chain : Chain) (res : Residue) (st : TState)
    (h : res.is_standard = false) :
    ∀ t ∈ (processResidue c struct chain res st).token_data.drop
        st.token_data.length,
      t.res_type =
        if (c.chain_types chain.mol_type != "NONPOLYMER") &&
            c.CCD_NAME_TO_ONE_LETTER res.name then
          res.res_type
        else
          unk_id c := by
  intro t ht
  rw [processResidue_nonstd c struct chain res st h, List.drop_left] at ht
  have hrt := res_type_of_mem_atomTokensFrom chain res
    (nonStdResType c chain res) (resAtomData struct res) res.atom_idx
    st.token_idx t ht
  rw [hrt, nonStdResType]

/-- Claim C5: for every standard residue, the single emitted token has
`resolved_mask = is_present residue AND is_present center atom` and
`disto_mask = is_present residue AND is_present disto atom`; in particular
`resolved_mask` is false whenever the residue's `is_present` flag is false
or the center atom is absent. -/
theorem std_token_masks (c : Const) (struct : Structure) (chain : Chain)
    (res : Residue) (st : TState) (h : res.is_standard = true) :
    (processResidue c struct chain res st).token_data.length =
      st.token_data.length + 1 ∧
    ((processResidue c struct chain res st).token_data.getD
        st.token_data.length dummyToken).resolved_mask =
      (res.is_present &&
        (struct.atoms.getD res.atom_center defaultAtom).is_present) ∧
    ((processResidue c struct chain res st).token_data.getD
        st.token_data.length dummyToken).disto_mask =
      (res.is_present &&
        (struct.atoms.getD res.atom_disto defaultAtom).is_present) ∧
    (res.is_present = false →
      ((processResidue c struct chain res st).token_data.getD
          st.token_data.length dummyToken).resolved_mask = false) ∧
    ((struct.atoms.getD res.atom_center defaultAtom).is_present = false →
      ((processResidue c struct chain res st).token_data.getD
          st.token_data.length dummyToken).resolved_mask = false) := by
  have he := processResidue_std c struct chain res st h
  have hg : (processResidue c struct chain res st).token_data.getD
      st.token_data.length dummyToken =
      stdTokenOf struct chain res st.token_idx := by
    rw [he]
    have h0 := getD_append_right st.token_data
      [stdTokenOf struct chain res st.token_idx] 0 dummyToken
    rw [Nat.add_zero] at h0
    exact h0
  refine ⟨?_, ?_, ?_, ?_, ?_⟩
  · rw [he]; simp
  · rw [hg]; rfl
  · rw [hg]; rfl
  · intro hf
    rw [hg]
    show (res.is_present &&
      (struct.atoms.getD res.atom_center defaultAtom).is_present) = false
    rw [hf, Bool.false_and]
  · intro hf
    rw [hg]
    show (res.is_present &&
      (struct.atoms.getD res.atom_center defaultAtom).is_present) = false
    rw [hf, Bool.and_false]

/-- Claim C8: for every standard-residue token, `atom_num` equals the
residue's recorded atom count, and (under the assumed well-formedness of
the input: the residue's designated center and disto atoms lie inside its
recorded atom range) `center_idx` and `disto_idx` reference atoms within
`[atom_idx, atom_idx + atom_num)`. -/
theorem std_token_atom_range (c : Const) (struct : Structure) (chain : Chain)
    (res : Residue) (st : TState) (h : res.is_standard = true)
    (hc : res.atom_idx ≤ res.atom_center ∧
      res.atom_center < res.atom_idx + res.atom_num)
    (hd : res.atom_idx ≤ res.atom_disto ∧
      res.atom_disto < res.atom_idx + res.atom_num) :
    ((processResidue c struct chain res st).token_data.getD
        st.token_data.length dummyToken).atom_num = res.atom_num ∧
    ((processResidue c struct chain res st).token_data.getD
        st.token_data.length dummyToken).atom_idx ≤
      ((processResidue c struct chain res st).token_data.getD
        st.token_data.length dummyToken).center_idx ∧
    ((processResidue c struct chain res st).token_data.getD
        st.token_data.length dummyToken).center_idx <
      ((processResidue c struct chain res st).token_data.getD
          st.token_data.length dummyToken).atom_idx +
        ((processResidue c struct chain res st).token_data.getD
          st.token_data.length dummyToken).atom_num ∧
    ((processResidue c struct chain res st).token_data.getD
        st.token_data.length dummyToken).atom_idx ≤
      ((processResidue c struct chain res st).token_data.getD
        st.token_data.length dummyToken).disto_idx ∧
    ((processResidue c struct chain res st).token_data.getD
        st.token_data.length dummyToken).disto_idx <
      ((processResidue c struct chain res st).token_data.getD
          st.token_data.length dummyToken).atom_idx +
        ((processResidue c struct chain res st).token_data.getD
          st.token_data.length dummyToken).atom_num := by
  have he := processResidue_std c struct chain res st h
  have hg : (processResidue c struct chain res st).token_data.getD
      st.token_data.length dummyToken =
      stdTokenOf struct chain res st.token_idx := by
    rw [he]
    have h0 := getD_append_right st.token_data
      [stdTokenOf struct chain res st.token_idx] 0 dummyToken
    rw [Nat.add_zero] at h0
    exact h0
  rw [hg]
  exact ⟨rfl, hc.1, hc.2, hd.1, hd.2⟩

lemma length_atomTokensFrom (chain : Chain) (res : Residue) (rt : Nat) :
    ∀ (data : List Atom) (idx k : Nat),
      (atomTokensFrom chain res rt idx k data).length = data.length := by
  intro data
  induction data with
  | nil => intro idx k; rfl
  | cons atom rest ih => intro idx k; simp [atomTokensFrom, ih]

lemma atomTokensFrom_getD (chain : Chain) (res : Residue) (rt : Nat) :
    ∀ (data : List Atom) (idx k i : Nat), i < data.length →
      (atomTokensFrom chain res rt idx k data).getD i dummyToken =
        mkAtomToken chain res rt (idx + i) (k + i)
          (data.getD i defaultAtom) := by
  intro data
  induction data with
  | nil => intro idx k i hi; simp at hi
  | cons atom rest ih =>
      intro idx k i hi
      cases i with
      | zero => simp only [atomTokensFrom, List.getD_cons_zero, Nat.add_zero]
      | succ j =>
          have hj : j < rest.length := by
            simpa [Nat.succ_lt_succ_iff] using hi
          simp only [atomTokensFrom, List.getD_cons_succ]
          rw [ih (idx + 1) (k + 1) j hj]
          have e1 : idx + 1 + j = idx + (j + 1) := by omega
          have e2 : k + 1 + j = k + (j + 1) := by omega
          rw [e1, e2]

lemma resAtomData_getD (struct : Structure) (res : Residue)
    (i : Nat) (hi : i < res.atom_num) :
    (resAtomData struct res).getD i defaultAtom =
      struct.atoms.getD (res.atom_idx + i) defaultAtom := by
  rw [resAtomData, List.getD_eq_getElem?_getD, List.getD_eq_getElem?_getD,
    List.getElem?_take, if_pos hi, List.getElem?_drop]

/-- Claim C6: for every non-standard residue (with its atom range in
bounds, as the source assumes), each atom in the residue's atom range
yields exactly one token with `atom_num = 1`,
`center_idx = disto_idx = atom_idx =` the atom's global index, center and
disto coordinates equal to that atom's own coordinates, and
`resolved_mask = disto_mask = (residue is_present AND atom is_present)`. -/
theorem nonstd_atom_token_fields (c : Const) (struct : Structure)
    (chain : Chain) (res : Residue) (st : TState)
    (h : res.is_standard = false)
    (hb : res.atom_idx + res.atom_num ≤ struct.atoms.length) :
    (processResidue c struct chain res st).token_data.length =
      st.token_data.length + res.atom_num ∧
    ∀ i, i < res.atom_num →
      ((processResidue c struct chain res st).token_data.getD
          (st.token_data.length + i) dummyToken).atom_num = 1 ∧
      ((processResidue c struct chain res st).token_data.getD
          (st.token_data.length + i) dummyToken).atom_idx =
        res.atom_idx + i ∧
      ((processResidue c struct chain res st).token_data.getD
          (st.token_data.length + i) dummyToken).center_idx =
        res.atom_idx + i ∧
      ((processResidue c struct chain res st).token_data.getD
          (st.token_data.length + i) dummyToken).disto_idx =
        res.atom_idx + i ∧
      ((processResidue c struct chain res st).token_data.getD
          (st.token_data.length + i) dummyToken).center_coords =
        (struct.atoms.getD (res.atom_idx + i) defaultAtom).coords ∧
      ((processResidue c struct chain res st).token_data.getD
          (st.token_data.length + i) dummyToken).disto_coords =
        (struct.atoms.getD (res.atom_idx + i) defaultAtom).coords ∧
      ((processResidue c struct chain res st).token_data.getD
          (st.token_data.length + i) dummyToken).resolved_mask =
        (res.is_present &&
          (struct.atoms.getD (res.atom_idx + i) defaultAtom).is_present) ∧
      ((processResidue c struct chain res st).token_data.getD
          (st.token_data.length + i) dummyToken).disto_mask =
        (res.is_present &&
          (struct.atoms.getD (res.atom_idx + i) defaultAtom).is_present) := by
  have he := processResidue_nonstd c struct chain res st h
  have hlen : (resAtomData struct res).length = res.atom_num :=
    length_resAtomData struct res hb
  constructor
  · rw [he]
    simp [length_atomTokensFrom, hlen]
  · intro i hi
    have hg : (processResidue c struct chain res st).token_data.getD
        (st.token_data.length + i) dummyToken =
        mkAtomToken chain res (nonStdResType c chain res) (res.atom_idx + i)
          (st.token_idx + i)
          (struct.atoms.getD (res.atom_idx + i) defaultAtom) := by
      rw [he]
      show (st.token_data ++ _).getD _ _ = _
      rw [getD_append_right,
        atomTokensFrom_getD chain res (nonStdResType c chain res)
          (resAtomData struct res) res.atom_idx st.token_idx i (hlen ▸ hi),
        resAtomData_getD struct res i hi]
    refine ⟨?_, ?_, ?_, ?_, ?_, ?_, ?_, ?_⟩ <;> rw [hg] <;> rfl

/-! Token counts. -/

/-- Well-formedness precondition (assumed, not checked, by the source):
every chain's recorded residue range lies inside the residues array. -/
def chainRangesInBounds (struct : Structure) : Prop :=
  ∀ ch ∈ struct.chains, ch.res_idx + ch.res_num ≤ struct.residues.length

instance (struct : Structure) : Decidable (chainRangesInBounds struct) :=
  List.decidableBAll _ _

lemma mem_chains_of_mem_validChains (struct : Structure) (ch : Chain)
    (h : ch ∈ validChains struct) : ch ∈ struct.chains := by
  rw [validChains] at h
  obtain ⟨p, hp, hfst⟩ := List.mem_map.mp h
  obtain ⟨hmem, _⟩ := List.mem_filter.mp hp
  cases p with
  | mk a b => exact hfst ▸ (List.of_mem_zip hmem).1

lemma length_chainResidues (struct : Structure) (ch : Chain)
    (h : ch.res_idx + ch.res_num ≤ struct.residues.length) :
    (chainResidues struct ch).length = ch.res_num := by
  rw [chainResidues, List.length_take, List.length_drop]
  exact Nat.min_eq_left (Nat.le_sub_of_add_le (Nat.add_comm _ _ ▸ h))

lemma resListCount_all_std (struct : Structure) :
    ∀ rl : List Residue, (∀ res ∈ rl, res.is_standard = true) →
      resListCount struct rl = rl.length := by
  intro rl
  induction rl with
  | nil => intro _; rfl
  | cons res rest ih =>
      intro hall
      have hres := hall res (List.mem_cons_self res rest)
      rw [resListCount, resCount, hres, if_pos rfl,
        ih (fun r hr => hall r (List.mem_cons_of_mem res hr))]
      simp [Nat.add_comm]

lemma resListCount_all_nonstd (struct : Structure) :
    ∀ rl : List Residue, (∀ res ∈ rl, res.is_standard = false) →
      (∀ res ∈ rl, res.atom_idx + res.atom_num ≤ struct.atoms.length) →
      resListCount struct rl = (rl.map Residue.atom_num).sum := by
  intro rl
  induction rl with
  | nil => intro _ _; rfl
  | cons res rest ih =>
      intro hall hbnd
      have hres := hall res (List.mem_cons_self res rest)
      have hb := hbnd res (List.mem_cons_self res rest)
      rw [resListCount, resCount, hres]
      simp only [Bool.false_eq_true, if_false]
      rw [length_resAtomData struct res hb,
        ih (fun r hr => hall r (List.mem_cons_of_mem res hr))
          (fun r hr => hbnd r (List.mem_cons_of_mem res hr))]
      simp

lemma chainListCount_congr_sum (struct : Structure) (f : Chain → Nat) :
    ∀ cl : List Chain,
      (∀ ch ∈ cl, resListCount struct (chainResidues struct ch) = f ch) →
      chainListCount struct cl = (cl.map f).sum := by
  intro cl
  induction cl with
  | nil => intro _; rfl
  | cons ch rest ih =>
      intro hall
      rw [chainListCount, hall ch (List.mem_cons_self ch rest),
        ih (fun c hc => hall c (List.mem_cons_of_mem ch hc))]
      simp

/-- Claim C7: if every residue of every valid chain is standard, the
number of emitted tokens equals the total residue count across valid
chains; if every residue of every valid chain is non-standard, the number
of emitted tokens equals the total atom count across valid chains (under
the in-bounds well-formedness the source assumes). -/
theorem tokenize_token_counts {M R : Type} (c : Const)
    (data1 data2 : Input M R)
    (hr1 : chainRangesInBounds data1.structure_)
    (h1 : ∀ ch ∈ validChains data1.structure_,
      ∀ res ∈ chainResidues data1.structure_ ch, res.is_standard = true)
    (hb2 : atomRangesInBounds data2.structure_)
    (h2 : ∀ ch ∈ validChains data2.structure_,
      ∀ res ∈ chainResidues data2.structure_ ch, res.is_standard = false) :
    (tokenize c data1).tokens.length =
      ((validChains data1.structure_).map Chain.res_num).sum ∧
    (tokenize c data2).tokens.length =
      ((validChains data2.structure_).map
        (fun ch => ((chainResidues data2.structure_ ch).map
          Residue.atom_num).sum)).sum := by
  constructor
  · show (emitTokens c data1.structure_).token_data.length = _
    rw [emitTokens_eq]
    show (chainListTokens c data1.structure_ 0 _).length = _
    rw [length_chainListTokens]
    refine chainListCount_congr_sum data1.structure_ Chain.res_num _
      (fun ch hch => ?_)
    rw [resListCount_all_std data1.structure_ _ (h1 ch hch)]
    exact length_chainResidues data1.structure_ ch
      (hr1 ch (mem_chains_of_mem_validChains data1.structure_ ch hch))
  · show (emitTokens c data2.structure_).token_data.length = _
    rw [emitTokens_eq]
    show (chainListTokens c data2.structure_ 0 _).length = _
    rw [length_chainListTokens]
    refine chainListCount_congr_sum data2.structure_ _ _ (fun ch hch => ?_)
    exact resListCount_all_nonstd data2.structure_ _ (h2 ch hch)
      (fun res hres => hb2 res
        (mem_residues_of_mem_chainResidues data2.structure_ ch res hres))

/-! Intra-residue bonds of standard residues. -/

lemma resList_std_membership (c : Const) (struct : Structure) (ch : Chain) :
    ∀ (rl : List Residue) (k0 : Nat) (res : Residue),
      res ∈ rl → res.is_standard = true →
      ∃ k, stdTokenOf struct ch res k ∈ resListTokens c struct ch k0 rl ∧
        ∀ a ∈ residueAtoms res, (a, k) ∈ resListBindings struct k0 rl := by
  intro rl
  induction rl with
  | nil => intro k0 res hmem _; simp at hmem
  | cons res0 rest ih =>
      intro k0 res hmem hstd
      rcases List.mem_cons.mp hmem with heq | htl
      · subst heq
        refine ⟨k0, ?_, ?_⟩
        · rw [resListTokens, resTokens, if_pos hstd]
          exact List.mem_append_left _ (List.mem_singleton_self _)
        · intro a ha
          rw [resListBindings, resBindings, if_pos hstd]
          exact List.mem_append_left _
            (List.mem_map.mpr ⟨a, ha, rfl⟩)
      · obtain ⟨k, htok, hbind⟩ :=
          ih (k0 + resCount struct res0) res htl hstd
        refine ⟨k, ?_, fun a ha => ?_⟩
        · rw [resListTokens]
          exact List.mem_append_right _ htok
        · rw [resListBindings]
          exact List.mem_append_right _ (hbind a ha)

lemma chainList_std_membership (c : Const) (struct : Structure) :
    ∀ (cl : List Chain) (k0 : Nat) (ch : Chain) (res : Residue),
      ch ∈ cl → res ∈ chainResidues struct ch → res.is_standard = true →
      ∃ k, stdTokenOf struct ch res k ∈ chainListTokens c struct k0 cl ∧
        ∀ a ∈ residueAtoms res, (a, k) ∈ chainListBindings struct k0 cl := by
  intro cl
  induction cl with
  | nil => intro k0 ch res hmem _ _; simp at hmem
  | cons ch0 rest ih =>
      intro k0 ch res hmem hres hstd
      rcases List.mem_cons.mp hmem with heq | htl
      · subst heq
        obtain ⟨k, htok, hbind⟩ :=
          resList_std_membership c struct ch (chainResidues struct ch) k0 res
            hres hstd
        refine ⟨k, ?_, fun a ha => ?_⟩
        · rw [chainListTokens]
          exact List.mem_append_left _ htok
        · rw [chainListBindings]
          exact List.mem_append_left _ (hbind a ha)
      · obtain ⟨k, htok, hbind⟩ :=
          ih (k0 + resListCount struct (chainResidues struct ch0)) ch res htl
            hres hstd
        refine ⟨k, ?_, fun a ha => ?_⟩
        · rw [chainListTokens]
          exact List.mem_append_right _ htok
        · rw [chainListBindings]
          exact List.mem_append_right _ (hbind a ha)

lemma mem_projectBonds (m : Nat → Option Nat) (bonds : List Bond)
    (bond : Bond) (t1 t2 : Nat) (hmem : bond ∈ bonds)
    (h1 : m bond.atom_1 = some t1) (h2 : m bond.atom_2 = some t2) :
    (t1, t2) ∈ projectBonds m bonds := by
  rw [projectBonds]
  exact List.mem_filterMap.mpr ⟨bond, hmem, by rw [h1, h2]⟩

lemma count_projectBonds_ge (m : Nat → Option Nat) (bonds : List Bond)
    (bond : Bond) (t1 t2 : Nat)
    (h1 : m bond.atom_1 = some t1) (h2 : m bond.atom_2 = some t2) :
    bonds.count bond ≤ (projectBonds m bonds).count (t1, t2) := by
  induction bonds with
  | nil => simp [projectBonds]
  | cons b rest ih =>
      by_cases hbb : b = bond
      · subst hbb
        rw [projectBonds, List.filterMap_cons]
        simp only [h1, h2]
        rw [List.count_cons, List.count_cons]
        simp only [beq_self_eq_true, if_true]
        have ihx : rest.count b ≤ (projectBonds m rest).count (t1, t2) := ih
        rw [projectBonds] at ihx
        omega
      · have hne : (b == bond) = false := beq_eq_false_iff_ne.mpr hbb
        rw [List.count_cons, hne]
        simp only [Bool.false_eq_true, if_false, Nat.add_zero]
        have hstep : (projectBonds m rest).count (t1, t2) ≤
            (projectBonds m (b :: rest)).count (t1, t2) := by
          rw [projectBonds, projectBonds, List.filterMap_cons]
          cases hA : m b.atom_1 with
          | none => exact Nat.le_refl _
          | some u =>
              cases hB : m b.atom_2 with
              | none => exact Nat.le_refl _
              | some v =>
                  rw [List.count_cons]
                  exact Nat.le_add_right _ _
        exact Nat.le_trans ih hstep

/-- Claim C10: for every atom-level bond or connection whose two endpoints
both lie in the atom range of the same standard residue of a valid chain,
`tokenize` emits the self-loop token bond `(t, t)` where `t` is that
residue's single token index (the index of the token record emitted for
that residue); such intra-token bonds are neither dropped (membership) nor
merged (the multiplicity of `(t, t)` is at least the bond's multiplicity
in the input).  The in-bounds and no-overlap hypotheses are the
well-formedness the source assumes. -/
theorem intra_residue_bond_self_loop {M R : Type} (c : Const)
    (data : Input M R) (ch : Chain) (res : Residue) (bond : Bond)
    (hch : ch ∈ validChains data.structure_)
    (hres : res ∈ chainResidues data.structure_ ch)
    (hstd : res.is_standard = true)
    (hmem : bond ∈ data.structure_.bonds ∨ bond ∈ data.structure_.connections)
    (ha1 : bond.atom_1 ∈ residueAtoms res)
    (ha2 : bond.atom_2 ∈ residueAtoms res)
    (hb : atomRangesInBounds data.structure_)
    (hnd : (validAtoms data.structure_).Nodup) :
    ∃ t, atomToToken (emitTokens c data.structure_) bond.atom_1 = some t ∧
      atomToToken (emitTokens c data.structure_) bond.atom_2 = some t ∧
      stdTokenOf data.structure_ ch res t ∈ (tokenize c data).tokens ∧
      (t, t) ∈ (tokenize c data).bonds ∧
      data.structure_.bonds.count bond +
          data.structure_.connections.count bond ≤
        (tokenize c data).bonds.count (t, t) := by
  obtain ⟨k, htok, hbind⟩ :=
    chainList_std_membership c data.structure_
      (validChains data.structure_) 0 ch res hch hres hstd
  have hknd : ((emitTokens c data.structure_).atom_to_token.map
      Prod.fst).Nodup := by
    rw [keys_emitTokens c data.structure_ hb]
    exact hnd
  have hbind1 : (bond.atom_1, k) ∈
      (emitTokens c data.structure_).atom_to_token := by
    rw [emitTokens_eq]
    exact hbind bond.atom_1 ha1
  have hbind2 : (bond.atom_2, k) ∈
      (emitTokens c data.structure_).atom_to_token := by
    rw [emitTokens_eq]
    exact hbind bond.atom_2 ha2
  have hl1 : atomToToken (emitTokens c data.structure_) bond.atom_1 = some k :=
    lookup_eq_some_of_mem_of_nodup _ _ _ hknd hbind1
  have hl2 : atomToToken (emitTokens c data.structure_) bond.atom_2 = some k :=
    lookup_eq_some_of_mem_of_nodup _ _ _ hknd hbind2
  refine ⟨k, hl1, hl2, ?_, ?_, ?_⟩
  · show stdTokenOf data.structure_ ch res k ∈
      (emitTokens c data.structure_).token_data
    rw [emitTokens_eq]
    exact htok
  · show (k, k) ∈
      projectBonds (atomToToken (emitTokens c data.structure_))
        data.structure_.bonds ++
      projectBonds (atomToToken (emitTokens c data.structure_))
        data.structure_.connections
    rcases hmem with hmb | hmc
    · exact List.mem_append_left _
        (mem_projectBonds _ _ bond k k hmb hl1 hl2)
    · exact List.mem_append_right _
        (mem_projectBonds _ _ bond k k hmc hl1 hl2)
  · show _ ≤ (projectBonds (atomToToken (emitTokens c data.structure_))
        data.structure_.bonds ++
      projectBonds (atomToToken (emitTokens c data.structure_))
        data.structure_.connections).count (k, k)
    rw [List.count_append]
    exact Nat.add_le_add
      (count_projectBonds_ge _ _ bond k k hl1 hl2)
      (count_projectBonds_ge _ _ bond k k hl1 hl2)

/-! Concrete example data instantiating the theorems. -/

/-- Example configuration: token id 2 for the `UNK` protein token, remap
shifts by 10 (so the substituted unknown type is 12), molecule type 3 is
the non-polymer category, and only `ALA` has a one-letter code. -/
def cW : Const :=
  { unk_token_PROTEIN := "UNK"
    token_ids := fun s => if s = "UNK" then 2 else 0
    mapping_boltz_token_ids_to_our_token_ids := fun n => n + 10
    chain_types := fun n => if n = 3 then "NONPOLYMER" else "PROTEIN"
    CCD_NAME_TO_ONE_LETTER := fun s => s == "ALA" }

/-- Example standard residue: atoms 0-1, centered at atom 0. -/
def res0W : Residue :=
  { atom_idx := 0, atom_num := 2, res_idx := 0, res_type := 5, name := "ALA"
    is_standard := true, is_present := true, atom_center := 0, atom_disto := 1 }

/-- Example non-standard residue: atoms 2-3. -/
def res1W : Residue :=
  { atom_idx := 2, atom_num := 2, res_idx := 1, res_type := 7, name := "XYZ"
    is_standard := false, is_present := true, atom_center := 2, atom_disto := 2 }

/-- Example standard residue on the invalid chain: atoms 4-5. -/
def res2W : Residue :=
  { atom_idx := 4, atom_num := 2, res_idx := 0, res_type := 6, name := "GLY"
    is_standard := true, is_present := true, atom_center := 4, atom_disto := 5 }

/-- Example chain covering residues 0-1. -/
def ch0W : Chain :=
  { res_idx := 0, res_num := 2, mol_type := 0, sym_id := 0, asym_id := 1
    entity_id := 0, cyclic_period := 0 }

/-- Example chain covering residue 2 (masked out below). -/
def ch1W : Chain :=
  { res_idx := 2, res_num := 1, mol_type := 0, sym_id := 0, asym_id := 2
    entity_id := 0, cyclic_period := 0 }

/-- Example structure: one valid chain (standard then non-standard
residue), one invalid chain, three bonds and one connection. -/
def structW : Structure :=
  { chains := [ch0W, ch1W]
    mask := [true, false]
    residues := [res0W, res1W, res2W]
    atoms :=
      [⟨(0, 0, 1), true⟩, ⟨(0, 1, 0), true⟩, ⟨(1, 0, 0), true⟩,
        ⟨(1, 1, 0), false⟩, ⟨(2, 0, 0), true⟩, ⟨(2, 1, 0), true⟩]
    bonds := [⟨0, 1⟩, ⟨2, 3⟩, ⟨4, 5⟩]
    connections := [⟨1, 2⟩] }

/-- Example input bundle around `structW`. -/
def inputW : Input Nat Nat :=
  { structure_ := structW, msa := 42, residue_constraints := 7 }

/-- Example all-standard structure (both residues of its valid chain are
standard). -/
def structSW : Structure :=
  { chains := [ch0W]
    mask := [true]
    residues := [res0W, res2W]
    atoms :=
      [⟨(0, 0, 1), true⟩, ⟨(0, 1, 0), true⟩, ⟨(1, 0, 0), true⟩,
        ⟨(1, 1, 0), false⟩, ⟨(2, 0, 0), true⟩, ⟨(2, 1, 0), true⟩]
    bonds := []
    connections := [] }

/-- Example all-non-standard structure (the only residue of its valid
chain is non-standard). -/
def structNW : Structure :=
  { chains := [{ res_idx := 0, res_num := 1, mol_type := 0, sym_id := 0
                 asym_id := 1, entity_id := 0, cyclic_period := 0 }]
    mask := [true]
    residues := [res1W]
    atoms :=
      [⟨(0, 0, 1), true⟩, ⟨(0, 1, 0), true⟩, ⟨(1, 0, 0), true⟩,
        ⟨(1, 1, 0), false⟩, ⟨(2, 0, 0), true⟩, ⟨(2, 1, 0), true⟩]
    bonds := []
    connections := [] }

/-- Example input bundle around `structSW`. -/
def inputSW : Input Nat Nat :=
  { structure_ := structSW, msa := 0, residue_constraints := 0 }

/-- Example input bundle around `structNW`. -/
def inputNW : Input Nat Nat :=
  { structure_ := structNW, msa := 0, residue_constraints := 0 }

/-- Example bond internal to the standard residue `res0W`. -/
def bondW : Bond := ⟨0, 1⟩

/-- Witness for claim C1 at the non-standard residue `res1W`. -/
theorem nonstd_res_type_policy_witness :
    ((processResidue cW structW ch0W res1W initState).token_data.getD 0
        dummyToken).res_type =
      if (cW.chain_types ch0W.mol_type != "NONPOLYMER") &&
          cW.CCD_NAME_TO_ONE_LETTER res1W.name then
        res1W.res_type
      else
        unk_id cW :=
  nonstd_res_type_policy cW structW ch0W res1W initState rfl
    ((processResidue cW structW ch0W res1W initState).token_data.getD 0
      dummyToken) (by decide)

/-- Witness for claim C3 on `structW` (whose well-formedness hypotheses
hold by computation). -/
theorem tokenize_atom_map_total_witness :
    (∀ a ∈ validAtoms structW,
      ∃ t, atomToToken (emitTokens cW structW) a = some t) ∧
    ((emitTokens cW structW).atom_to_token.map Prod.fst).Nodup ∧
    (∀ a ∈ invalidAtoms structW,
      atomToToken (emitTokens cW structW) a = none) :=
  tokenize_atom_map_total cW structW (by decide) (by decide) (by decide)

/-- Witness for claim C5 at the standard residue `res0W`. -/
theorem std_token_masks_witness :
    ((processResidue cW structW ch0W res0W initState).token_data.getD
        initState.token_data.length dummyToken).resolved_mask =
      (res0W.is_present &&
        (structW.atoms.getD res0W.atom_center defaultAtom).is_present) :=
  (std_token_masks cW structW ch0W res0W initState rfl).2.1

/-- Witness for claim C6 at atom 0 of the non-standard residue `res1W`. -/
theorem nonstd_atom_token_fields_witness :
    ((processResidue cW structW ch0W res1W initState).token_data.getD
        (initState.token_data.length + 0) dummyToken).atom_idx =
      res1W.atom_idx + 0 :=
  ((nonstd_atom_token_fields cW structW ch0W res1W initState rfl
      (by decide)).2 0 (by decide)).2.1

/-- Witness for claim C7 on an all-standard and an all-non-standard
structure. -/
theorem tokenize_token_counts_witness :
    (tokenize cW inputSW).tokens.length =
      ((validChains inputSW.structure_).map Chain.res_num).sum ∧
    (tokenize cW inputNW).tokens.length =
      ((validChains inputNW.structure_).map
        (fun ch => ((chainResidues inputNW.structure_ ch).map
          Residue.atom_num).sum)).sum :=
  tokenize_token_counts cW inputSW inputNW (by decide) (by decide)
    (by decide) (by decide)

/-- Witness for claim C8 at the standard residue `res0W`. -/
theorem std_token_atom_range_witness :
    ((processResidue cW structW ch0W res0W initState).token_data.getD
        initState.token_data.length dummyToken).atom_num = res0W.atom_num :=
  (std_token_atom_range cW structW ch0W res0W initState rfl (by decide)
    (by decide)).1

/-- Witness for claim C10 at the bond `(0, 1)` internal to `res0W`. -/
theorem intra_residue_bond_self_loop_witness :
    ∃ t, atomToToken (emitTokens cW inputW.structure_) bondW.atom_1 = some t ∧
      atomToToken (emitTokens cW inputW.structure_) bondW.atom_2 = some t ∧
      stdTokenOf inputW.structure_ ch0W res0W t ∈ (tokenize cW inputW).tokens ∧
      (t, t) ∈ (tokenize cW inputW).bonds ∧
      inputW.structure_.bonds.count bondW +
          inputW.structure_.connections.count bondW ≤
        (tokenize cW inputW).bonds.count (t, t) :=
  intra_residue_bond_self_loop cW inputW ch0W res0W bondW (by decide)
    (by decide) rfl (by decide) (by decide) (by decide) (by decide) (by decide)

end IntFold
